import Mathlib

/-!
Verification of the Tesla dashcam SEI extractor
(`src/teslacamblackbox/sei_extractor.py`).

The source operates on byte streams; we embed a byte stream as `List Nat`
(each element a byte value) and file reads/seeks as list destructuring and
`List.drop`.  Fallible operations return `Except String` (the Python code
raises `RuntimeError` with a message) or `Option`.  Sizes that the Python
code computes by subtraction that may go negative are modelled as `Int`.
-/

/-- Big-endian 32-bit unsigned integer from four bytes
(`struct.unpack of four bytes with format >I`). -/
def be32 (b0 b1 b2 b3 : Nat) : Nat :=
  ((b0 * 256 + b1) * 256 + b2) * 256 + b3

/-- Big-endian 64-bit unsigned integer from eight bytes
(`struct.unpack of eight bytes with format >Q`). -/
def be64 (c0 c1 c2 c3 c4 c5 c6 c7 : Nat) : Nat :=
  ((((((c0 * 256 + c1) * 256 + c2) * 256 + c3) * 256 + c4) * 256 + c5) * 256
      + c6) * 256 + c7

/-- The loop of `find_mdat` from `sei_extractor.py` lines 133-152.
`stream` is the byte stream from the current file position onward, `pos`
the current file position.  Reads an 8-byte atom header (4-byte big-endian
size, 4-byte type tag `109 100 97 116` = ASCII mdat); a 32-bit size of 1
triggers reading an 8-byte big-endian extended size (16-byte header).
On the mdat type tag it returns `(fp.tell(), atom_size - header_size if
atom_size else 0)`; otherwise it checks `atom_size < header_size` and skips
`atom_size - header_size` bytes.  A read of n bytes from the stream is
modelled as a length check (short read) plus `List.drop n`; `ext_size`
below is the value of the 8 extended-size bytes read on
`large = fp.read(8)` (lines 139-142). -/
def ext_size (rest : List Nat) : Nat :=
  be64 (rest.getD 0 0) (rest.getD 1 0) (rest.getD 2 0) (rest.getD 3 0)
    (rest.getD 4 0) (rest.getD 5 0) (rest.getD 6 0) (rest.getD 7 0)

def find_mdat_go (stream : List Nat) (pos : Nat) : Except String (Nat × Int) :=
  match stream with
  | b0 :: b1 :: b2 :: b3 :: t0 :: t1 :: t2 :: t3 :: rest =>
    if be32 b0 b1 b2 b3 = 1 then
      if rest.length < 8 then
        .error "truncated extended atom size"
      else if t0 = 109 ∧ t1 = 100 ∧ t2 = 97 ∧ t3 = 116 then
        .ok (pos + 16, if ext_size rest ≠ 0 then (ext_size rest : Int) - 16
          else 0)
      else if ext_size rest < 16 then
        .error "invalid MP4 atom size"
      else
        find_mdat_go ((rest.drop 8).drop (ext_size rest - 16))
          (pos + ext_size rest)
    else
      if t0 = 109 ∧ t1 = 100 ∧ t2 = 97 ∧ t3 = 116 then
        .ok (pos + 8, if be32 b0 b1 b2 b3 ≠ 0
          then (be32 b0 b1 b2 b3 : Int) - 8 else 0)
      else if be32 b0 b1 b2 b3 < 8 then
        .error "invalid MP4 atom size"
      else
        find_mdat_go (rest.drop (be32 b0 b1 b2 b3 - 8))
          (pos + be32 b0 b1 b2 b3)
  | _ => .error "mdat atom not found"
termination_by stream.length
decreasing_by
  all_goals simp [List.length_drop]
  all_goals omega

/-- `find_mdat(fp)`: return `(offset, size)` for the first mdat atom,
scanning from position 0 (lines 130-152). -/
def find_mdat (stream : List Nat) : Except String (Nat × Int) :=
  find_mdat_go stream 0

/-- The loop of `strip_emulation_prevention_bytes` (lines 85-92):
`zero_count` is the count of consecutive zero bytes appended to the output
so far. -/
def strip_go : List Nat → Nat → List Nat
  | [], _ => []
  | b :: rest, zero_count =>
    if 2 ≤ zero_count ∧ b = 0x03 then
      strip_go rest 0
    else
      b :: strip_go rest (if b ≠ 0 then 0 else zero_count + 1)

/-- `strip_emulation_prevention_bytes(data)` (lines 83-93): remove emulation
prevention bytes (0x03 following two zero bytes of output). -/
def strip_emulation_prevention_bytes (data : List Nat) : List Nat :=
  strip_go data 0

/-- The scan loop of `extract_proto_payload` (lines 71-79): `for i in
range(3, len(nal) - 1)`, modelled with the running index `i` as an
argument.  Byte 0x42 continues, byte 0x69 (when `i > 2`) returns the
de-stuffed slice `nal` from `i + 1` up to but excluding the last byte,
any other byte stops with no payload. -/
def extract_go (nal : List Nat) (i : Nat) : Option (List Nat) :=
  if i + 1 < nal.length then
    if nal.getD i 0 = 0x42 then
      extract_go nal (i + 1)
    else if nal.getD i 0 = 0x69 then
      if 2 < i then
        some (strip_emulation_prevention_bytes
          ((nal.take (nal.length - 1)).drop (i + 1)))
      else none
    else none
  else none
termination_by nal.length - i

/-- `extract_proto_payload(nal)` (lines 67-80): `None` on buffers shorter
than 2 bytes, otherwise scan from index 3. -/
def extract_proto_payload (nal : List Nat) : Option (List Nat) :=
  if nal.length < 2 then none
  else extract_go nal 3

/-- The loop of `iter_nals` (lines 102-127).  `stream` is the byte stream
from the current file position onward; `size` and the running `consumed`
counter are as in the source (`size` is an `Int` because `find_mdat` can
return a negative size).  Returns the list of yielded NAL units paired
with the final value of `consumed`.  Each iteration: check
`size == 0 or consumed < size`; read a 4-byte big-endian length (short
read breaks); a length below 2 is skipped; read 2 marker bytes (short read
breaks, modelled by the length check with the bytes accessed by `getD`);
a unit failing the SEI/user-data test `(first & 0x1F) == 6 and
second == 5` is skipped by length; otherwise read the body (short read
breaks) and yield the unit. -/
def iter_nals_go (stream : List Nat) (size : Int) (consumed : Nat) :
    List (List Nat) × Nat :=
  if size = 0 ∨ (consumed : Int) < size then
    match stream with
    | b0 :: b1 :: b2 :: b3 :: rest =>
      if be32 b0 b1 b2 b3 < 2 then
        iter_nals_go (rest.drop (be32 b0 b1 b2 b3)) size
          (consumed + 4 + be32 b0 b1 b2 b3)
      else if rest.length < 2 then
        ([], consumed)
      else if rest.getD 0 0 % 32 ≠ 6 ∨ rest.getD 1 0 ≠ 5 then
        iter_nals_go ((rest.drop 2).drop (be32 b0 b1 b2 b3 - 2)) size
          (consumed + 4 + be32 b0 b1 b2 b3)
      else if (rest.drop 2).length < be32 b0 b1 b2 b3 - 2 then
        ([], consumed)
      else
        ((rest.getD 0 0 :: rest.getD 1 0 ::
            (rest.drop 2).take (be32 b0 b1 b2 b3 - 2)) ::
          (iter_nals_go ((rest.drop 2).drop (be32 b0 b1 b2 b3 - 2)) size
            (consumed + 4 + be32 b0 b1 b2 b3)).1,
         (iter_nals_go ((rest.drop 2).drop (be32 b0 b1 b2 b3 - 2)) size
            (consumed + 4 + be32 b0 b1 b2 b3)).2)
    | _ => ([], consumed)
  else ([], consumed)
termination_by stream.length
decreasing_by
  all_goals simp [List.length_drop]
  all_goals omega

/-- `iter_nals(fp, offset, size)` (lines 96-127): seek to `offset` in the
full stream and scan with `consumed = 0`.  First component is the yielded
sequence of NAL units. -/
def iter_nals (stream : List Nat) (offset : Nat) (size : Int) :
    List (List Nat) × Nat :=
  iter_nals_go (stream.drop offset) size 0

/-- `iter_sei_messages(fp, offset, size)` (lines 53-64) restricted to its
per-NAL body: `decode` stands for the external protobuf deserializer
(`SeiMetadata.ParseFromString`, returning `none` on `DecodeError`); a
payload that is `None` or empty (falsy in Python) is skipped. -/
def iter_sei_messages {α : Type} (decode : List Nat → Option α) :
    List (List Nat) → List α
  | [] => []
  | nal :: rest =>
    match extract_proto_payload nal with
    | none => iter_sei_messages decode rest
    | some p =>
      if p = [] then iter_sei_messages decode rest
      else
        match decode p with
        | none => iter_sei_messages decode rest
        | some m => m :: iter_sei_messages decode rest

/-- One line printed by `main` (lines 31-50): the header row of schema
field names, a data row for one decoded message, or one of the diagnostic
lines printed when no SEI metadata was found.  The field-name list and the
row rendering belong to the external deserializer and formatter, so the
header and diagnostic are abstract constructors here. -/
inductive OutLine (α : Type) : Type
  | headerLine : OutLine α
  | dataRow : α → OutLine α
  | diagLine : OutLine α
deriving DecidableEq

/-- The output loop of `main` (lines 33-50) over the already-decoded
message sequence: `has_sei` is the flag of line 33; the header row is
printed right before the first data row; if no message was decoded the
diagnostic block is printed instead. -/
def main_go {α : Type} : List α → Bool → List (OutLine α)
  | [], has_sei => if has_sei then [] else [OutLine.diagLine]
  | m :: rest, has_sei =>
    (if has_sei then [] else [OutLine.headerLine])
      ++ OutLine.dataRow m :: main_go rest true

/-- The lines printed by `main` (lines 31-50) given the NAL units of the
mdat atom and the external deserializer `decode`. -/
def main_rows {α : Type} (decode : List Nat → Option α)
    (nals : List (List Nat)) : List (OutLine α) :=
  main_go (iter_sei_messages decode nals) false

/-- A byte list contains the three-byte run 00 00 03 somewhere
(the `00 00 03` run of the de-stuffing claims). -/
def has003 : List Nat → Bool
  | [] => false
  | [_] => false
  | [_, _] => false
  | a :: b :: c :: rest => (a = 0 ∧ b = 0 ∧ c = 3 : Bool) || has003 (b :: c :: rest)

/-- C2: de-stuffing copies input bytes one at a time tracking the count of
consecutive zero output bytes: when the zero-count is 2 or more and the
current byte is 0x03, the byte is dropped and the count resets; otherwise
the byte is copied and the count increments on a zero byte, else resets;
and on input 00 00 03 01 00 00 03 02 the output is 00 00 01 00 00 02. -/
theorem strip_step_and_example :
    (∀ b rest zero_count, 2 ≤ zero_count → b = 0x03 →
      strip_go (b :: rest) zero_count = strip_go rest 0) ∧
    (∀ b rest zero_count, ¬ (2 ≤ zero_count ∧ b = 0x03) →
      strip_go (b :: rest) zero_count
        = b :: strip_go rest (if b ≠ 0 then 0 else zero_count + 1)) ∧
    strip_emulation_prevention_bytes [0x00, 0x00, 0x03, 0x01, 0x00, 0x00,
        0x03, 0x02]
      = [0x00, 0x00, 0x01, 0x00, 0x00, 0x02] := by
  refine ⟨fun b rest zc h1 h2 => ?_, fun b rest zc h => ?_, by decide⟩
  · simp [strip_go, h1, h2]
  · simp only [strip_go, if_neg h]

/-- C2 witness: the drop step at a concrete input. -/
theorem strip_step_and_example_check :
    strip_go [0x03, 7] 2 = strip_go [7] 0 :=
  strip_step_and_example.1 0x03 [7] 2 (by decide) rfl

/-- C1 counterexample: on a stream whose first atom is an mdat atom with
declared size 5 (nonzero, below the 8-byte header size), the Atom Locator
does not fail: it returns the pair (8, -3) whose size component is
negative. -/
theorem find_mdat_negative_size :
    find_mdat [0, 0, 0, 5, 109, 100, 97, 116] = .ok (8, -3)
      ∧ (-3 : Int) < 0 := by
  refine ⟨?_, by decide⟩
  simp [find_mdat, find_mdat_go, be32]

/-- C1 amended: the Atom Locator fails with a ContainerFormatError whenever
a non-media-data atom it examines declares a size smaller than its own
header size; the media-data atom's declared size is not validated, and for
a media-data atom whose nonzero declared size is smaller than its header
size the locator returns declared minus header as size, which is
negative. -/
theorem find_mdat_size_check :
    (∀ b0 b1 b2 b3 t0 t1 t2 t3 rest pos, be32 b0 b1 b2 b3 ≠ 1 →
      ¬ (t0 = 109 ∧ t1 = 100 ∧ t2 = 97 ∧ t3 = 116) →
      be32 b0 b1 b2 b3 < 8 →
      find_mdat_go (b0 :: b1 :: b2 :: b3 :: t0 :: t1 :: t2 :: t3 :: rest) pos
        = .error "invalid MP4 atom size") ∧
    (∀ t0 t1 t2 t3 c0 c1 c2 c3 c4 c5 c6 c7 rest2 pos,
      ¬ (t0 = 109 ∧ t1 = 100 ∧ t2 = 97 ∧ t3 = 116) →
      be64 c0 c1 c2 c3 c4 c5 c6 c7 < 16 →
      find_mdat_go (0 :: 0 :: 0 :: 1 :: t0 :: t1 :: t2 :: t3 ::
          c0 :: c1 :: c2 :: c3 :: c4 :: c5 :: c6 :: c7 :: rest2) pos
        = .error "invalid MP4 atom size") ∧
    (∀ b0 b1 b2 b3 rest pos, be32 b0 b1 b2 b3 ≠ 1 →
      be32 b0 b1 b2 b3 ≠ 0 → be32 b0 b1 b2 b3 < 8 →
      find_mdat_go (b0 :: b1 :: b2 :: b3 :: 109 :: 100 :: 97 :: 116 :: rest)
          pos
        = .ok (pos + 8, (be32 b0 b1 b2 b3 : Int) - 8)
      ∧ (be32 b0 b1 b2 b3 : Int) - 8 < 0) ∧
    (∀ c0 c1 c2 c3 c4 c5 c6 c7 rest2 pos,
      be64 c0 c1 c2 c3 c4 c5 c6 c7 ≠ 0 →
      be64 c0 c1 c2 c3 c4 c5 c6 c7 < 16 →
      find_mdat_go (0 :: 0 :: 0 :: 1 :: 109 :: 100 :: 97 :: 116 ::
          c0 :: c1 :: c2 :: c3 :: c4 :: c5 :: c6 :: c7 :: rest2) pos
        = .ok (pos + 16, (be64 c0 c1 c2 c3 c4 c5 c6 c7 : Int) - 16)
      ∧ (be64 c0 c1 c2 c3 c4 c5 c6 c7 : Int) - 16 < 0) := by
  refine ⟨fun b0 b1 b2 b3 t0 t1 t2 t3 rest pos h1 h2 h3 => ?_,
    fun t0 t1 t2 t3 c0 c1 c2 c3 c4 c5 c6 c7 rest2 pos h2 h3 => ?_,
    fun b0 b1 b2 b3 rest pos h1 h2 h3 => ?_,
    fun c0 c1 c2 c3 c4 c5 c6 c7 rest2 pos h2 h3 => ?_⟩
  · rw [find_mdat_go, if_neg h1, if_neg h2, if_pos h3]
  · rw [find_mdat_go, if_pos (by norm_num [be32]),
      if_neg (by simp), if_neg h2, if_pos (by simpa [ext_size] using h3)]
  · refine ⟨?_, by omega⟩
    rw [find_mdat_go, if_neg h1, if_pos ⟨rfl, rfl, rfl, rfl⟩, if_pos h2]
  · refine ⟨?_, by omega⟩
    rw [find_mdat_go, if_pos (by norm_num [be32]), if_neg (by simp),
      if_pos ⟨rfl, rfl, rfl, rfl⟩]
    simp [ext_size, h2]

/-- C1 amended witness: a non-mdat atom of declared size 7 makes the
locator fail. -/
theorem find_mdat_size_check_inst :
    find_mdat_go [0, 0, 0, 7, 102, 114, 101, 101] 0
      = .error "invalid MP4 atom size" :=
  find_mdat_size_check.1 0 0 0 7 102 114 101 101 [] 0 (by decide) (by decide)
    (by decide)

theorem iter_nals_go_short (s : List Nat) (size : Int) (c : Nat)
    (h : s.length < 4) : iter_nals_go s size c = ([], c) := by
  rcases s with _ | ⟨a, _ | ⟨b, _ | ⟨d, _ | ⟨e, t⟩⟩⟩⟩
  · simp [iter_nals_go]
  · simp [iter_nals_go]
  · simp [iter_nals_go]
  · simp [iter_nals_go]
  · simp at h
    omega

theorem iter_nals_go_consumed_le (stream : List Nat) (size : Int)
    (consumed : Nat) : consumed ≤ (iter_nals_go stream size consumed).2 := by
  induction stream, size, consumed using iter_nals_go.induct with
  | case1 size c hc b0 b1 b2 b3 rest hs ih =>
    rw [iter_nals_go, if_pos hc, if_pos hs]
    omega
  | case2 size c hc b0 b1 b2 b3 rest hs hr =>
    rw [iter_nals_go, if_pos hc, if_neg hs, if_pos hr]
  | case3 size c hc b0 b1 b2 b3 rest hs hr hm ih =>
    rw [iter_nals_go, if_pos hc, if_neg hs, if_neg hr, if_pos hm]
    omega
  | case4 size c hc b0 b1 b2 b3 rest hs hr hm hb =>
    rw [iter_nals_go, if_pos hc, if_neg hs, if_neg hr, if_neg hm, if_pos hb]
  | case5 size c hc b0 b1 b2 b3 rest hs hr hm hb ih =>
    rw [iter_nals_go, if_pos hc, if_neg hs, if_neg hr, if_neg hm, if_neg hb]
    exact le_trans (by omega) ih
  | case6 s size c hc hshape =>
    rcases s with _ | ⟨a, _ | ⟨b, _ | ⟨d, _ | ⟨e, t⟩⟩⟩⟩
    · simp [iter_nals_go]
    · simp [iter_nals_go]
    · simp [iter_nals_go]
    · simp [iter_nals_go]
    · exact (hshape a b d e t rfl).elim
  | case7 s size c hc =>
    rcases s with _ | ⟨a, _ | ⟨b, _ | ⟨d, _ | ⟨e, t⟩⟩⟩⟩
    · simp [iter_nals_go]
    · simp [iter_nals_go]
    · simp [iter_nals_go]
    · simp [iter_nals_go]
    · rw [iter_nals_go, if_neg hc]

/-- C7: a NAL unit with declared length below 2 is skipped by exactly that
many bytes, no unit is yielded for it, and the consumed counter advances by
exactly 4 + length: the scan state equals the scan state at the stream
advanced past the skipped unit. -/
theorem iter_nals_degenerate (b0 b1 b2 b3 : Nat) (rest : List Nat)
    (size : Int) (consumed : Nat)
    (hcond : size = 0 ∨ (consumed : Int) < size)
    (hsmall : be32 b0 b1 b2 b3 < 2) :
    iter_nals_go (b0 :: b1 :: b2 :: b3 :: rest) size consumed
      = iter_nals_go (rest.drop (be32 b0 b1 b2 b3)) size
          (consumed + 4 + be32 b0 b1 b2 b3) := by
  rw [iter_nals_go, if_pos hcond, if_pos hsmall]

/-- C7 witness: a zero-length unit at the head of the region. -/
theorem iter_nals_degenerate_inst :
    iter_nals_go [0, 0, 0, 0] 0 0
      = iter_nals_go (List.drop (be32 0 0 0 0) []) 0 (0 + 4 + be32 0 0 0 0) :=
  iter_nals_degenerate 0 0 0 0 [] 0 0 (Or.inl rfl) (by decide)

/-- C6: whenever too few bytes remain for a 4-byte length, the 2
marker bytes, or a unit body of the declared remaining length, the
Demultiplexer ends its output silently: the result is the empty
continuation ([], consumed), so rows yielded before the truncation point
(produced by earlier iterations) are kept and no error is raised; in
particular a well-formed unit followed by a truncated 3-byte tail still
yields its row. -/
theorem iter_nals_truncation :
    (∀ (s : List Nat) (size : Int) (c : Nat), s.length < 4 →
      iter_nals_go s size c = ([], c)) ∧
    (∀ (b0 b1 b2 b3 : Nat) (r : List Nat) (size : Int) (c : Nat),
      2 ≤ be32 b0 b1 b2 b3 → r.length < 2 →
      iter_nals_go (b0 :: b1 :: b2 :: b3 :: r) size c = ([], c)) ∧
    (∀ (b0 b1 b2 b3 f0 f1 : Nat) (r2 : List Nat) (size : Int) (c : Nat),
      2 ≤ be32 b0 b1 b2 b3 → f0 % 32 = 6 → f1 = 5 →
      r2.length < be32 b0 b1 b2 b3 - 2 →
      iter_nals_go (b0 :: b1 :: b2 :: b3 :: f0 :: f1 :: r2) size c
        = ([], c)) ∧
    (iter_nals_go [0, 0, 0, 2, 6, 5, 9, 9, 9] 0 0).1 = [[6, 5]] := by
  refine ⟨iter_nals_go_short, fun b0 b1 b2 b3 r size c h1 h2 => ?_,
    fun b0 b1 b2 b3 f0 f1 r2 size c h1 hm0 hm1 h4 => ?_,
    by simp [iter_nals_go, be32]⟩
  · rcases r with _ | ⟨f0, _ | ⟨f1, r2⟩⟩
    · by_cases hc : size = 0 ∨ (c : Int) < size
      · rw [iter_nals_go, if_pos hc, if_neg (by omega), if_pos (by simp)]
      · rw [iter_nals_go, if_neg hc]
    · by_cases hc : size = 0 ∨ (c : Int) < size
      · rw [iter_nals_go, if_pos hc, if_neg (by omega), if_pos (by simp)]
      · rw [iter_nals_go, if_neg hc]
    · simp at h2
      omega
  · by_cases hc : size = 0 ∨ (c : Int) < size
    · rw [iter_nals_go, if_pos hc, if_neg (by omega), if_neg (by simp),
        if_neg (by simp [hm0, hm1]), if_pos (by exact h4)]
    · rw [iter_nals_go, if_neg hc]

/-- C6 witness: a stream holding only 3 bytes ends the sequence at once. -/
theorem iter_nals_truncation_inst :
    iter_nals_go [9, 9, 9] 0 0 = ([], 0) :=
  iter_nals_truncation.1 [9, 9, 9] 0 0 (by decide)

/-- C10: the region-size check happens only before the 4-byte length read:
if the loop condition holds when a unit begins, a passing SEI unit is read
in full and yielded even when its body extends past the declared region
end, and the final consumed counter of the scan then exceeds size. -/
theorem iter_nals_overrun (b0 b1 b2 b3 f0 f1 : Nat) (rest2 : List Nat)
    (size : Int) (consumed : Nat)
    (hcond : size = 0 ∨ (consumed : Int) < size)
    (hsize : 2 ≤ be32 b0 b1 b2 b3)
    (hm0 : f0 % 32 = 6) (hm1 : f1 = 5)
    (hbody : be32 b0 b1 b2 b3 - 2 ≤ rest2.length)
    (hover : size < ((consumed + 4 + be32 b0 b1 b2 b3 : Nat) : Int)) :
    (iter_nals_go (b0 :: b1 :: b2 :: b3 :: f0 :: f1 :: rest2) size
        consumed).1
      = (f0 :: f1 :: rest2.take (be32 b0 b1 b2 b3 - 2)) ::
          (iter_nals_go (rest2.drop (be32 b0 b1 b2 b3 - 2)) size
            (consumed + 4 + be32 b0 b1 b2 b3)).1
    ∧ size < (((iter_nals_go (b0 :: b1 :: b2 :: b3 :: f0 :: f1 :: rest2)
          size consumed).2 : Nat) : Int) := by
  have hstep : iter_nals_go (b0 :: b1 :: b2 :: b3 :: f0 :: f1 :: rest2) size
      consumed
      = ((f0 :: f1 :: rest2.take (be32 b0 b1 b2 b3 - 2)) ::
          (iter_nals_go (rest2.drop (be32 b0 b1 b2 b3 - 2)) size
            (consumed + 4 + be32 b0 b1 b2 b3)).1,
         (iter_nals_go (rest2.drop (be32 b0 b1 b2 b3 - 2)) size
            (consumed + 4 + be32 b0 b1 b2 b3)).2) := by
    rw [iter_nals_go, if_pos hcond, if_neg (by omega), if_neg (by simp),
      if_neg (by simp [hm0, hm1]), if_neg (by exact Nat.not_lt.mpr hbody)]
    exact rfl
  refine ⟨by rw [hstep], ?_⟩
  rw [hstep]
  have hmono := iter_nals_go_consumed_le (rest2.drop (be32 b0 b1 b2 b3 - 2))
    size (consumed + 4 + be32 b0 b1 b2 b3)
  omega

/-- C10 witness: a 2-byte SEI unit whose 6 total bytes overrun a declared
region size of 1. -/
theorem iter_nals_overrun_inst :
    (iter_nals_go [0, 0, 0, 2, 6, 5] 1 0).1
      = (6 :: 5 :: List.take (be32 0 0 0 2 - 2) []) ::
          (iter_nals_go (List.drop (be32 0 0 0 2 - 2) []) 1
            (0 + 4 + be32 0 0 0 2)).1
    ∧ (1 : Int) < (((iter_nals_go [0, 0, 0, 2, 6, 5] 1 0).2 : Nat) : Int) :=
  iter_nals_overrun 0 0 0 2 6 5 [] 1 0 (Or.inr (by decide)) (by decide)
    (by decide) rfl (by decide) (by decide)

/-- C4: every NAL-unit buffer yielded by the Demultiplexer has a first
byte whose low 5 bits equal 6 and a second byte equal to 5; units whose
first two bytes fail this test are never yielded. -/
theorem iter_nals_yield_marker (stream : List Nat) (size : Int)
    (consumed : Nat) (nal : List Nat)
    (h : nal ∈ (iter_nals_go stream size consumed).1) :
    ∃ f0 f1 t, nal = f0 :: f1 :: t ∧ f0 % 32 = 6 ∧ f1 = 5 := by
  revert h
  induction stream, size, consumed using iter_nals_go.induct with
  | case1 size c hc b0 b1 b2 b3 rest hs ih =>
    intro h
    rw [iter_nals_go, if_pos hc, if_pos hs] at h
    exact ih h
  | case2 size c hc b0 b1 b2 b3 rest hs hr =>
    intro h
    rw [iter_nals_go, if_pos hc, if_neg hs, if_pos hr] at h
    simp at h
  | case3 size c hc b0 b1 b2 b3 rest hs hr hm ih =>
    intro h
    rw [iter_nals_go, if_pos hc, if_neg hs, if_neg hr, if_pos hm] at h
    exact ih h
  | case4 size c hc b0 b1 b2 b3 rest hs hr hm hb =>
    intro h
    rw [iter_nals_go, if_pos hc, if_neg hs, if_neg hr, if_neg hm,
      if_pos hb] at h
    simp at h
  | case5 size c hc b0 b1 b2 b3 rest hs hr hm hb ih =>
    intro h
    rw [iter_nals_go, if_pos hc, if_neg hs, if_neg hr, if_neg hm,
      if_neg hb] at h
    push_neg at hm
    rcases List.mem_cons.mp h with h | h
    · exact ⟨rest.getD 0 0, rest.getD 1 0,
        (rest.drop 2).take (be32 b0 b1 b2 b3 - 2), h, hm.1, hm.2⟩
    · exact ih h
  | case6 s size c hc hshape =>
    intro h
    rcases s with _ | ⟨a, _ | ⟨b, _ | ⟨d, _ | ⟨e, t⟩⟩⟩⟩
    · simp [iter_nals_go] at h
    · simp [iter_nals_go] at h
    · simp [iter_nals_go] at h
    · simp [iter_nals_go] at h
    · exact (hshape a b d e t rfl).elim
  | case7 s size c hc =>
    intro h
    rcases s with _ | ⟨a, _ | ⟨b, _ | ⟨d, _ | ⟨e, t⟩⟩⟩⟩
    · simp [iter_nals_go] at h
    · simp [iter_nals_go] at h
    · simp [iter_nals_go] at h
    · simp [iter_nals_go] at h
    · rw [iter_nals_go, if_neg hc] at h
      simp at h

/-- C4 witness: the single SEI unit of a tiny region is yielded and
carries the marker bytes. -/
theorem iter_nals_yield_marker_inst :
    ∃ f0 f1 t, ([6, 5] : List Nat) = f0 :: f1 :: t ∧ f0 % 32 = 6 ∧ f1 = 5 :=
  iter_nals_yield_marker [0, 0, 0, 2, 6, 5] 0 0 [6, 5]
    (by simp [iter_nals_go, be32])

/-- C3: payload extraction scans from index 3 with a three-way branch:
0x42 continues the scan, 0x69 beyond index 2 returns the de-stuffed bytes
strictly after that position and before the final byte, any other byte
value (or 0x69 at position 2 or earlier) yields no payload; buffers of
length 2 or 3 yield no payload, and a buffer with 0x69 at index 2 exactly
is rejected. -/
theorem extract_scan_spec :
    (∀ nal : List Nat, nal.length = 2 ∨ nal.length = 3 →
      extract_proto_payload nal = none) ∧
    (∀ nal : List Nat, 2 ≤ nal.length →
      extract_proto_payload nal = extract_go nal 3) ∧
    (∀ (nal : List Nat) (i : Nat), i + 1 < nal.length →
      nal.getD i 0 = 0x42 → extract_go nal i = extract_go nal (i + 1)) ∧
    (∀ (nal : List Nat) (i : Nat), i + 1 < nal.length →
      nal.getD i 0 = 0x69 → 2 < i →
      extract_go nal i = some (strip_emulation_prevention_bytes
        ((nal.take (nal.length - 1)).drop (i + 1)))) ∧
    (∀ (nal : List Nat) (i : Nat), i + 1 < nal.length →
      nal.getD i 0 = 0x69 → i ≤ 2 → extract_go nal i = none) ∧
    (∀ (nal : List Nat) (i : Nat), i + 1 < nal.length →
      nal.getD i 0 ≠ 0x42 → nal.getD i 0 ≠ 0x69 →
      extract_go nal i = none) ∧
    extract_proto_payload [0x00, 0x00, 0x69, 9, 9] = none := by
  refine ⟨fun nal h => ?_, fun nal h => ?_, fun nal i h1 h2 => ?_,
    fun nal i h1 h2 h3 => ?_, fun nal i h1 h2 h3 => ?_,
    fun nal i h1 h42 h69 => ?_, ?_⟩
  · unfold extract_proto_payload
    rw [if_neg (by omega), extract_go, if_neg (by omega)]
  · unfold extract_proto_payload
    rw [if_neg (by omega)]
  · rw [extract_go, if_pos h1, if_pos h2]
  · rw [extract_go, if_pos h1, if_neg (by rw [h2]; decide), if_pos h2,
      if_pos h3]
  · rw [extract_go, if_pos h1, if_neg (by rw [h2]; decide), if_pos h2,
      if_neg (by omega)]
  · rw [extract_go, if_pos h1, if_neg h42, if_neg h69]
  · simp [extract_proto_payload, extract_go]

/-- C3 witness: the marker right after the three header bytes, with one
payload byte and the trailing byte discarded. -/
theorem extract_scan_spec_inst :
    extract_go [0, 0, 0, 0x69, 5, 7] 3
      = some (strip_emulation_prevention_bytes
          ((List.take ([0, 0, 0, 0x69, 5, 7].length - 1)
            [0, 0, 0, 0x69, 5, 7]).drop (3 + 1))) :=
  extract_scan_spec.2.2.2.1 [0, 0, 0, 0x69, 5, 7] 3 (by decide) (by decide)
    (by decide)

/-- C5: for atom headers with declared size at least the header size the
Atom Locator skips by exactly the declared size; a 32-bit size field of 1
triggers the 8-byte big-endian extended size (16-byte header); and for
the media-data atom it returns the position after the header as offset
and declared minus header size as size, with 0 substituted when the
declared size was 0, for both 8- and 16-byte headers. -/
theorem find_mdat_header_handling :
    (∀ b0 b1 b2 b3 t0 t1 t2 t3 rest pos, be32 b0 b1 b2 b3 ≠ 1 →
      ¬ (t0 = 109 ∧ t1 = 100 ∧ t2 = 97 ∧ t3 = 116) →
      8 ≤ be32 b0 b1 b2 b3 →
      find_mdat_go (b0 :: b1 :: b2 :: b3 :: t0 :: t1 :: t2 :: t3 :: rest) pos
        = find_mdat_go (rest.drop (be32 b0 b1 b2 b3 - 8))
            (pos + be32 b0 b1 b2 b3)) ∧
    (∀ t0 t1 t2 t3 c0 c1 c2 c3 c4 c5 c6 c7 rest2 pos,
      ¬ (t0 = 109 ∧ t1 = 100 ∧ t2 = 97 ∧ t3 = 116) →
      16 ≤ be64 c0 c1 c2 c3 c4 c5 c6 c7 →
      find_mdat_go (0 :: 0 :: 0 :: 1 :: t0 :: t1 :: t2 :: t3 ::
          c0 :: c1 :: c2 :: c3 :: c4 :: c5 :: c6 :: c7 :: rest2) pos
        = find_mdat_go (rest2.drop (be64 c0 c1 c2 c3 c4 c5 c6 c7 - 16))
            (pos + be64 c0 c1 c2 c3 c4 c5 c6 c7)) ∧
    (∀ b0 b1 b2 b3 rest pos, be32 b0 b1 b2 b3 ≠ 1 →
      find_mdat_go (b0 :: b1 :: b2 :: b3 :: 109 :: 100 :: 97 :: 116 :: rest)
          pos
        = .ok (pos + 8, if be32 b0 b1 b2 b3 ≠ 0
            then (be32 b0 b1 b2 b3 : Int) - 8 else 0)) ∧
    (∀ c0 c1 c2 c3 c4 c5 c6 c7 rest2 pos,
      find_mdat_go (0 :: 0 :: 0 :: 1 :: 109 :: 100 :: 97 :: 116 ::
          c0 :: c1 :: c2 :: c3 :: c4 :: c5 :: c6 :: c7 :: rest2) pos
        = .ok (pos + 16, if be64 c0 c1 c2 c3 c4 c5 c6 c7 ≠ 0
            then (be64 c0 c1 c2 c3 c4 c5 c6 c7 : Int) - 16 else 0)) := by
  have hext : ∀ (c0 c1 c2 c3 c4 c5 c6 c7 : Nat) (rest2 : List Nat),
      ext_size (c0 :: c1 :: c2 :: c3 :: c4 :: c5 :: c6 :: c7 :: rest2)
        = be64 c0 c1 c2 c3 c4 c5 c6 c7 := fun _ _ _ _ _ _ _ _ _ => rfl
  have hdrop : ∀ (c0 c1 c2 c3 c4 c5 c6 c7 : Nat) (rest2 : List Nat),
      (c0 :: c1 :: c2 :: c3 :: c4 :: c5 :: c6 :: c7 :: rest2).drop 8
        = rest2 := fun _ _ _ _ _ _ _ _ _ => rfl
  refine ⟨fun b0 b1 b2 b3 t0 t1 t2 t3 rest pos h1 h2 h3 => ?_,
    fun t0 t1 t2 t3 c0 c1 c2 c3 c4 c5 c6 c7 rest2 pos h2 h3 => ?_,
    fun b0 b1 b2 b3 rest pos h1 => ?_,
    fun c0 c1 c2 c3 c4 c5 c6 c7 rest2 pos => ?_⟩
  · rw [find_mdat_go, if_neg h1, if_neg h2, if_neg (by omega)]
  · rw [find_mdat_go, if_pos (by norm_num [be32]), if_neg (by simp),
      if_neg h2, if_neg (by rw [hext]; omega), hext, hdrop]
  · rw [find_mdat_go, if_neg h1, if_pos ⟨rfl, rfl, rfl, rfl⟩]
  · rw [find_mdat_go, if_pos (by norm_num [be32]), if_neg (by simp),
      if_pos ⟨rfl, rfl, rfl, rfl⟩, hext]

/-- C5 witness: an mdat atom with an 8-byte header and declared size 9. -/
theorem find_mdat_header_handling_inst :
    find_mdat_go [0, 0, 0, 9, 109, 100, 97, 116, 9] 0
      = .ok (0 + 8, if be32 0 0 0 9 ≠ 0 then (be32 0 0 0 9 : Int) - 8
          else 0) :=
  find_mdat_header_handling.2.2.1 0 0 0 9 [9] 0 (by decide)

theorem has003_tail {b : Nat} {r : List Nat} (h : has003 (b :: r) = false) :
    has003 r = false := by
  rcases r with _ | ⟨x, _ | ⟨y, t⟩⟩
  · rfl
  · rfl
  · rw [has003] at h
    simp only [Bool.or_eq_false_iff] at h
    exact h.2

theorem strip_go_no003 (y : List Nat) : ∀ zc : Nat, has003 y = false →
    (1 ≤ zc → ∀ t, y ≠ 0 :: 3 :: t) →
    (2 ≤ zc → ∀ t, y ≠ 3 :: t) →
    strip_go y zc = y := by
  induction y with
  | nil =>
    intro zc h h1 h2
    rfl
  | cons b r ih =>
    intro zc h h1 h2
    have hr : has003 r = false := has003_tail h
    have hnotdrop : ¬ (2 ≤ zc ∧ b = 0x03) := by
      rintro ⟨hzc, hb⟩
      exact h2 hzc r (by rw [hb])
    rw [strip_go, if_neg hnotdrop]
    congr 1
    by_cases hb0 : b = 0
    · subst hb0
      rw [if_neg (by simp)]
      refine ih (zc + 1) hr ?_ ?_
      · intro _ t hrt
        rw [hrt] at h
        simp [has003] at h
      · intro hzc t hrt
        exact h1 (by omega) t (by rw [hrt])
    · rw [if_pos hb0]
      refine ih 0 hr ?_ ?_
      · intro h0
        exact absurd h0 (by decide)
      · intro h0
        exact absurd h0 (by decide)

/-- C8: de-stuffing is idempotent on inputs whose de-stuffed form has no
00 00 03 run, and is the identity on any input containing no 00 00 03
run. -/
theorem strip_idempotent :
    (∀ x, has003 (strip_emulation_prevention_bytes x) = false →
      strip_emulation_prevention_bytes (strip_emulation_prevention_bytes x)
        = strip_emulation_prevention_bytes x) ∧
    (∀ y, has003 y = false → strip_emulation_prevention_bytes y = y) := by
  have base : ∀ y, has003 y = false →
      strip_emulation_prevention_bytes y = y := fun y h =>
    strip_go_no003 y 0 h (fun h1 => absurd h1 (by decide))
      (fun h2 => absurd h2 (by decide))
  exact ⟨fun x hx => base _ hx, base⟩

/-- C8 witness: the input 00 00 03 01 de-stuffs to 00 00 01, which is a
fixed point of de-stuffing. -/
theorem strip_idempotent_inst :
    strip_emulation_prevention_bytes
        (strip_emulation_prevention_bytes [0, 0, 3, 1])
      = strip_emulation_prevention_bytes [0, 0, 3, 1] :=
  strip_idempotent.1 [0, 0, 3, 1] (by decide)

theorem main_go_map {α : Type} (ms : List α) :
    main_go ms true = ms.map OutLine.dataRow := by
  induction ms with
  | nil => rfl
  | cons m rest ih => simp [main_go, ih]

/-- C9: the header row is emitted exactly once, immediately before the
first data row, and only if at least one record decoded; payloads the
deserializer rejects are silently skipped; with no decoded record the
diagnostic block is emitted instead of a table. -/
theorem main_rows_spec {α : Type} (decode : List Nat → Option α)
    (nals : List (List Nat)) :
    (iter_sei_messages decode nals = [] →
      main_rows decode nals = [OutLine.diagLine]) ∧
    (iter_sei_messages decode nals ≠ [] →
      main_rows decode nals
        = OutLine.headerLine ::
            (iter_sei_messages decode nals).map OutLine.dataRow) ∧
    (∀ nal rest p, extract_proto_payload nal = some p → p ≠ [] →
      decode p = none →
      iter_sei_messages decode (nal :: rest)
        = iter_sei_messages decode rest) := by
  refine ⟨fun h => ?_, fun h => ?_, fun nal rest p hp hne hd => ?_⟩
  · show main_go (iter_sei_messages decode nals) false = _
    rw [h]
    rfl
  · obtain ⟨m, ms, hms⟩ := List.exists_cons_of_ne_nil h
    show main_go (iter_sei_messages decode nals) false = _
    rw [hms]
    simp [main_go, main_go_map]
  · simp [iter_sei_messages, hp, hne, hd]

/-- C9 witness: with no NAL units at all, the diagnostic block is the
whole output. -/
theorem main_rows_spec_inst :
    main_rows (fun _ => (none : Option Nat)) [] = [OutLine.diagLine] :=
  (main_rows_spec (fun _ => (none : Option Nat)) []).1 rfl
